import Mathlib

/-!
Shallow embedding of the oxibooru_toolkit sources (src/post_utils.rs,
src/api_utils.rs, src/main.rs) and proofs about them.

Rust strings are modelled as Lean `String`; the character-level helpers
below reproduce the exact `str` methods the source uses (`split('\n')`,
`split_whitespace`, `trim`, `replace(" ", "_")`, `lines`).  `HashSet`
accumulation followed by `into_iter().collect()` is modelled by
`List.dedup` (set semantics: the iteration order of a `HashSet` is
unspecified, so only membership and nodup-ness are meaningful).
Fallible Rust code is modelled with `Except`; a Rust panic (an
`unwrap` on `None`) is modelled as a distinguished `Except.error`
constructor, clearly separate from ordinary returned errors.
-/

namespace Oxibooru

/-- Models Rust `str::split(sep)` for a one-character separator:
splits at every occurrence, keeping empty segments ("" yields [""]). -/
def splitCharAux (sep : Char) : List Char → List Char → List String
  | [], acc => [String.mk acc.reverse]
  | c :: rest, acc =>
    if c = sep then String.mk acc.reverse :: splitCharAux sep rest []
    else splitCharAux sep rest (c :: acc)

def splitOnChar (sep : Char) (s : String) : List String :=
  splitCharAux sep s.data []

/-- Models Rust `str::trim` (whitespace stripped from both ends). -/
def trimChars (s : String) : String :=
  String.mk (((s.data.dropWhile Char.isWhitespace).reverse.dropWhile
    Char.isWhitespace).reverse)

/-- Models Rust `str::replace(" ", "_")`: a one-character pattern, so it
is exactly a character map sending every space to an underscore. -/
def underscoreSpaces (s : String) : String :=
  String.mk (s.data.map (fun c => if c = ' ' then '_' else c))

/-- Models Rust `str::split_whitespace`: splits at whitespace runs and
never yields empty tokens. -/
def splitWsAux : List Char → List Char → List String
  | [], acc => if acc.isEmpty then [] else [String.mk acc.reverse]
  | c :: rest, acc =>
    if c.isWhitespace then
      if acc.isEmpty then splitWsAux rest []
      else String.mk acc.reverse :: splitWsAux rest []
    else splitWsAux rest (c :: acc)

def splitWhitespace (s : String) : List String :=
  splitWsAux s.data []

/-- Models Rust `str::to_lowercase` (character-wise, ASCII range). -/
def lowerString (s : String) : String :=
  String.mk (s.data.map Char.toLower)

def stripSuffixCR (l : String) : String :=
  match l.data.reverse with
  | c :: rest => if c = '\r' then String.mk rest.reverse else l
  | [] => l

/-- Models Rust `str::lines`: segments terminated by a newline, the
final line ending optional, a trailing carriage return stripped from
each newline-terminated segment ("" yields no lines). -/
def rustLines (s : String) : List String :=
  let segs := splitOnChar '\n' s
  let last := segs.getLastD ""
  (segs.dropLast.map stripSuffixCR) ++ (if last = "" then [] else [last])

/-! ## Data model (szurubooru_client models as used by the source) -/

/-- Source enum `PostSafety { Safe, Sketchy, Unsafe }`; the third
variant is named `nsfw` here because its source name is a Lean keyword. -/
inductive PostSafety where
  | safe
  | sketchy
  | nsfw
deriving DecidableEq, Repr

/-- A tag as returned on a remote post: only `names` is used. -/
structure TagResource where
  names : List String
deriving DecidableEq, Repr

/-- A related post as returned on a remote post: only `id` is used. -/
structure PostResource where
  id : Nat
deriving DecidableEq, Repr

/-- The remote exact-match post (fields of the source's resource type
that create_post reads). -/
structure RemotePost where
  id : Option Nat
  version : Option Nat
  tags : Option (List TagResource)
  safety : Option PostSafety
  source : Option String
  relations : Option (List PostResource)
deriving DecidableEq, Repr

/-- A reverse-search similar match: `post.id` and `distance`.
The distance is modelled as a rational (the source compares an `f32`
against the exactly representable constant 0.75). -/
structure SimilarPost where
  id : Option Nat
  distance : ℚ
deriving DecidableEq, Repr

/-- Source struct `CreateUpdatePost` (the fields the source sets). -/
structure CreateUpdatePost where
  version : Option Nat
  tags : Option (List String)
  safety : Option PostSafety
  source : Option String
  relations : Option (List Nat)
  notes : Option String
  flags : Option (List String)
  content_url : Option String
  content_token : Option String
  anonymous : Option Bool
deriving DecidableEq, Repr

/-! ## Merge engine (post_utils.rs, merge_vecs_unique / merge_source) -/

/-- `merge_vecs_unique`: both optional vectors are poured into a
`HashSet` and the set is collected back out; empty set gives `None`.
The `HashSet` is modelled by `List.dedup` of the concatenation. -/
def merge_vecs_unique {T : Type} [DecidableEq T]
    (vec1 vec2 : Option (List T)) : Option (List T) :=
  let unique_tags := (vec1.getD [] ++ vec2.getD []).dedup
  if unique_tags.isEmpty then none else some unique_tags

/-- The deduplicated union of line-sets that `merge_source` builds. -/
def sourceLineUnion (opt1 opt2 : Option String) : List String :=
  ((opt1.getD "" |> rustLines) ++ (opt2.getD "" |> rustLines)).dedup

/-- `merge_source`: the lines of both optional texts are poured into a
`HashSet`; if the set is empty the result is `None`, otherwise the
lines are joined with newlines. -/
def merge_source (opt1 opt2 : Option String) : Option String :=
  let unique_lines := sourceLineUnion opt1 opt2
  if unique_lines.isEmpty then none
  else some (String.intercalate "\n" unique_lines)

/-! ## Sidecar metadata reader (post_utils.rs, make_post_with_metadata) -/

/-- A serde_json `Value` as far as the source inspects it. -/
inductive Json where
  | null
  | bool (b : Bool)
  | num (n : Int)
  | str (s : String)
  | arr (xs : List Json)
  | obj (fields : List (String × Json))

/-- `Value::get(key)` on an object (None on non-objects / missing key). -/
def Json.get : Json → String → Option Json
  | .obj fields, key => (fields.find? (fun f => f.1 = key)).map (·.2)
  | _, _ => none

/-- `Value::as_str`. -/
def Json.asStr : Json → Option String
  | .str s => some s
  | _ => none

/-- `Value::as_array`. -/
def Json.asArr : Json → Option (List Json)
  | .arr xs => some xs
  | _ => none

/-- The state of the optional `.json` sidecar next to a media file:
absent, present but not valid JSON, or parsed to a `Json` value. -/
inductive SidecarJson where
  | absent
  | malformed
  | parsed (j : Json)

/-- Outcomes of `make_post_with_metadata` other than success: the
returned `SzurubooruClientError::ResponseParsingError` on a malformed
sidecar, and the panic of `json_data.get("category").unwrap()` when a
parsed sidecar has no "category" key (a panic, modelled as a
distinguished error constructor). -/
inductive MetaErr where
  | parseError
  | panicMissingCategory
deriving DecidableEq, Repr

/-- Tags derived from a `.txt` sidecar's contents: trim the file, split
on newlines, trim each line and replace spaces with underscores. -/
def txtTags (content : String) : List String :=
  (splitOnChar '\n' (trimChars content)).map
    (fun s => underscoreSpaces (trimChars s))

/-- The `tags_vec` computation of the JSON path: dispatch on the
"category" string; array sites parse a JSON array (lowercased,
spaces to underscores), two sites split a string on whitespace, the
default splits a string on commas and trims each token. -/
def jsonTags (j : Json) (website : String) : Option (List String) :=
  if website = "art.mobius.social" ∨ website = "sankaku" ∨
      website = "danbooru" then
    (j.get "tags" >>= Json.asArr).map (fun tags_array =>
      (tags_array.filterMap Json.asStr).map
        (fun s => underscoreSpaces (lowerString s)))
  else if website = "rule34" ∨ website = "safebooru" then
    (j.get "tags" >>= Json.asStr).map splitWhitespace
  else
    (j.get "tags" >>= Json.asStr).map
      (fun tags_str => (splitOnChar ',' tags_str).map trimChars)

/-- The "username" extraction: `get("username")` then `as_str`. -/
def jsonUsername (j : Json) : Option String :=
  j.get "username" >>= Json.asStr

/-- The safety/rating string extraction: "safety" first, "rating" as
fallback. -/
def jsonSafetyStr (j : Json) : Option String :=
  (j.get "safety" >>= Json.asStr).orElse
    (fun _ => j.get "rating" >>= Json.asStr)

/-- Mapping of a safety/rating string to `PostSafety` (unrecognized
strings yield `none`, only logged in the source). -/
def parseSafety (safety_str : String) : Option PostSafety :=
  let l := lowerString safety_str
  if l = "safe" ∨ l = "s" then some PostSafety.safe
  else if l = "sketchy" ∨ l = "questionable" ∨ l = "q" then
    some PostSafety.sketchy
  else if l = "unsafe" ∨ l = "explicit" ∨ l = "e" then
    some PostSafety.nsfw
  else none

/-- The recognized safety of a sidecar state (none when the sidecar is
absent, has no safety/rating string, or the string is unrecognized). -/
def sidecarSafety : SidecarJson → Option PostSafety
  | .parsed j => jsonSafetyStr j >>= parseSafety
  | _ => none

/-- `make_post_with_metadata`, as a pure function of the sidecar
contents: `txt` is the `.txt` sidecar's text when that file exists,
`sj` the state of the `.json` sidecar.  Follows the source statement by
statement; the returned pair is (post, artist), artist being the
local `artist` variable (never reassigned in the source). -/
def jsonStep (json_data : Json) (post : CreateUpdatePost) :
    Except MetaErr CreateUpdatePost :=
  -- Extract source and url, appending them if necessary
  let post := match json_data.get "source" >>= Json.asStr with
    | some source => { post with source := some source }
    | none => post
  let post := match json_data.get "url" >>= Json.asStr with
    | some url =>
      { post with source := some (match post.source with
          | some existing_source => existing_source ++ "\n" ++ url
          | none => url) }
    | none => post
  -- `.get("category").unwrap()` panics when the key is missing
  match json_data.get "category" with
  | none => .error MetaErr.panicMissingCategory
  | some categoryVal =>
    let website := (categoryVal.asStr).getD ""
    let tags_vec := jsonTags json_data website
    let post := { post with tags := tags_vec }
    -- Extract username and add as a tag
    let post := match jsonUsername json_data with
      | some username_str =>
        { post with
          tags := some (post.tags.getD [] ++ ["creator:" ++ username_str]) }
      | none => post
    -- Extract safety (leave as None if not found)
    let post := match jsonSafetyStr json_data with
      | some safety_str => { post with safety := parseSafety safety_str }
      | none => post
    .ok post

def make_post_with_metadata (token : String) (txt : Option String)
    (sj : SidecarJson) :
    Except MetaErr (CreateUpdatePost × Option String) :=
  let post : CreateUpdatePost :=
    { version := none, tags := none, safety := none, source := none,
      relations := none, notes := none, flags := none,
      content_url := none, content_token := some token,
      anonymous := some false }
  let artist : Option String := none
  -- Check for TXT file for tags
  let post := match txt with
    | some content => { post with tags := some (txtTags content) }
    | none => post
  -- Check for JSON file for additional metadata
  match (match sj with
         | .absent => Except.ok post
         | .malformed => .error MetaErr.parseError
         | .parsed json_data => jsonStep json_data post) with
  | .error e => .error e
  | .ok post =>
    let post := if post.safety.isNone
      then { post with safety := some PostSafety.nsfw } else post
    .ok (post, artist)

/-! ## Duplicate resolver / orchestrator (post_utils.rs, create_post) -/

/-- The single booru API call `create_post` ends with: an update keyed
by the exact post's id with the merged body, or a create with the
draft.  The source issues exactly one of them per file (the update path
ends in `return`). -/
inductive ApiAction where
  | update (id : Nat) (body : CreateUpdatePost)
  | create (body : CreateUpdatePost)
deriving DecidableEq, Repr

/-- Panics of the decision logic in `create_post`: `similar_post.post
.id.unwrap()` and `exact_post.id.unwrap()` on a missing id. -/
inductive PanicErr where
  | missingSimilarId
  | missingExactId
deriving DecidableEq, Repr

/-- `similar_posts.filter(distance >= 0.75)` followed by
`map(.post.id.unwrap())`. -/
def extractSimilarIds : List SimilarPost → Except PanicErr (List Nat)
  | [] => .ok []
  | p :: rest =>
    match p.id with
    | none => .error PanicErr.missingSimilarId
    | some i => (extractSimilarIds rest).map (fun is => i :: is)

def similarRelations (similar_posts : List SimilarPost) :
    Except PanicErr (List Nat) :=
  extractSimilarIds
    (similar_posts.filter (fun p => decide ((0.75 : ℚ) ≤ p.distance)))

/-- The first-name projection applied to an exact post's tags:
`tags_vec.filter_map(|t| t.names.first().cloned())`. -/
def exactTagNames (tags : Option (List TagResource)) :
    Option (List String) :=
  tags.map (fun tags_vec => tags_vec.filterMap (fun t => t.names.head?))

/-- The id projection applied to an exact post's relations. -/
def exactRelationIds (relations : Option (List PostResource)) :
    Option (List Nat) :=
  relations.map (fun rs => rs.map (fun r => r.id))

/-- The safety chosen for the update body (the if-chain of
create_post): the local draft's safety when present, else the remote
post's, else `Unsafe`. -/
def mergedSafety (local_ remote : Option PostSafety) : Option PostSafety :=
  if local_.isSome then local_
  else if remote.isSome then remote
  else some PostSafety.nsfw

/-- The merged update body built when an exact match exists. -/
def mergedUpdateBody (exact_post : RemotePost) (post : CreateUpdatePost) :
    CreateUpdatePost :=
  { version := exact_post.version,
    tags := merge_vecs_unique (exactTagNames exact_post.tags) post.tags,
    safety := mergedSafety post.safety exact_post.safety,
    source := merge_source exact_post.source post.source,
    relations := merge_vecs_unique (exactRelationIds exact_post.relations)
      post.relations,
    notes := none, flags := none, content_url := none,
    content_token := none, anonymous := some false }

/-- The `if !similar_posts.is_empty()` step of `create_post`: a
non-empty similar list sets the draft's relations to the filtered ids
(or panics on a missing id). -/
def applySimilar (similar_posts : List SimilarPost)
    (draft : CreateUpdatePost) : Except PanicErr CreateUpdatePost :=
  if similar_posts.isEmpty then Except.ok draft
  else
    match similarRelations similar_posts with
    | .error e => .error e
    | .ok ids => .ok { draft with relations := some ids }

/-- The exact-match branch of `create_post`: an exact post turns into
an update against its id with the merged body (`return` in the source,
so the create call below it is never reached); no exact post turns
into a create with the draft. -/
def resolveAction (exact_post : Option RemotePost)
    (post : CreateUpdatePost) : Except PanicErr ApiAction :=
  match exact_post with
  | some ep =>
    match ep.id with
    | some i => .ok (ApiAction.update i (mergedUpdateBody ep post))
    | none => .error PanicErr.missingExactId
  | none => .ok (ApiAction.create post)

/-- The decision part of `create_post`: given the reverse-search result
(exact post and similar posts) and the draft built from the sidecars,
produce the single API action the source issues (or the panic it dies
with).  Network I/O (the reverse search, the temporary upload and the
final call itself) stays outside the model. -/
def create_post_decision (exact_post : Option RemotePost)
    (similar_posts : List SimilarPost) (draft : CreateUpdatePost) :
    Except PanicErr ApiAction :=
  match applySimilar similar_posts draft with
  | .error e => .error e
  | .ok post => resolveAction exact_post post

/-! ## Transport retry layer (api_utils.rs, ApiClient::retry) -/

/-- Observable events of one run of `ApiClient::retry`: each call of
the wrapped operation, and each `sleep(self.backoff)` between calls.
Durations are in abstract units (the source uses `Duration`). -/
inductive RetryEvent where
  | attempt
  | sleep (d : Nat)
deriving DecidableEq, Repr

/-- The body of `retry`'s `for attempt in 0..retry_count` loop,
with `remaining = retry_count - attempt` as the structural argument:
`remaining = 0` means the loop is over and the fallback
"Max retry attempts reached" error is returned; inside the loop an
error sleeps and continues only while `attempt < retry_count - 1`,
i.e. while at least one more iteration remains. -/
def retryGo {α : Type} (backoff : Nat) (f : Nat → Except String α)
    (attempt : Nat) : Nat → List RetryEvent × Except String α
  | 0 => ([], .error "Max retry attempts reached")
  | remaining + 1 =>
    match f attempt with
    | .ok result => ([RetryEvent.attempt], .ok result)
    | .error e =>
      if remaining > 0 then
        let (evs, res) := retryGo backoff f (attempt + 1) remaining
        (RetryEvent.attempt :: RetryEvent.sleep backoff :: evs, res)
      else ([RetryEvent.attempt], .error e)

/-- `ApiClient::retry` with `backoff` and `retry_count`, run against an
operation whose `k`-th call (0-based) returns `f k`; yields the trace
of attempts/sleeps and the final result. -/
def retryRun {α : Type} (backoff retry_count : Nat)
    (f : Nat → Except String α) : List RetryEvent × Except String α :=
  retryGo backoff f 0 retry_count

/-! ## Batch driver (main.rs, upload_posts) -/

/-- Outcome of the per-file retry loop in `upload_posts`, together with
the number of `create_post` calls made for the file. -/
inductive FileResult where
  | success (id : Nat) (attempts : Nat)
  | skipped (attempts : Nat)
  | aborted (e : String) (attempts : Nat)
deriving DecidableEq, Repr

def FileResult.attempts : FileResult → Nat
  | .success _ n => n
  | .skipped n => n
  | .aborted _ n => n

/-- The inner `loop` of `upload_posts` for one file: `f k` is the
result of the `k`-th `create_post` call (0-based), `retries` the
source's counter, `budget = retry_attempts - retries` the remaining
retries (structural argument; the source's guard
`retries < retry_attempts` holds exactly when `budget > 0`). -/
def uploadFileGo (skip_on_error : Bool)
    (f : Nat → Except String (Nat × Option String)) (retries : Nat) :
    Nat → FileResult
  | budget + 1 =>
    match f retries with
    | .ok (post_id, _) => .success post_id (retries + 1)
    | .error _ => uploadFileGo skip_on_error f (retries + 1) budget
  | 0 =>
    match f retries with
    | .ok (post_id, _) => .success post_id (retries + 1)
    | .error e =>
      if skip_on_error then .skipped (retries + 1)
      else .aborted e (retries + 1)

def uploadFile (skip_on_error : Bool) (retry_attempts : Nat)
    (f : Nat → Except String (Nat × Option String)) : FileResult :=
  uploadFileGo skip_on_error f 0 retry_attempts

/-- The file iteration of `upload_posts`: each file is the attempt
function handed to the inner loop; successes push their post id,
skipped files are passed over, and an aborted file makes the whole
function return the bare error (`return Err(e)` — the accumulated
`post_ids` are dropped).  Sleeps, deletion and printing are effects
outside the model. -/
def uploadPostsGo (skip_on_error : Bool) (retry_attempts : Nat) :
    List (Nat → Except String (Nat × Option String)) → List Nat →
    Except String (List Nat)
  | [], post_ids => .ok post_ids.reverse
  | f :: files, post_ids =>
    match uploadFile skip_on_error retry_attempts f with
    | .success id _ => uploadPostsGo skip_on_error retry_attempts files
        (id :: post_ids)
    | .skipped _ => uploadPostsGo skip_on_error retry_attempts files post_ids
    | .aborted e _ => .error e

def upload_posts (skip_on_error : Bool) (retry_attempts : Nat)
    (files : List (Nat → Except String (Nat × Option String))) :
    Except String (List Nat) :=
  uploadPostsGo skip_on_error retry_attempts files []

/-! ## Merge-pairs input (post_utils.rs, read_number_pairs) -/

/-- Models Rust `u32::from_str`: an optional leading sign, then one or
more ASCII digits, value within the 32-bit range (overflow fails). -/
def parseU32 (s : String) : Option Nat :=
  let cs := match s.data with
    | '+' :: rest => rest
    | cs => cs
  if cs.isEmpty then none
  else if cs.all Char.isDigit then
    let v := cs.foldl (fun acc c => acc * 10 + (c.toNat - '0'.toNat)) 0
    if v < 2 ^ 32 then some v else none
  else none

/-- Whether a line satisfies `read_number_pairs`: exactly two
whitespace-separated tokens, both parsing as `u32`. -/
def lineOk (line : String) : Bool :=
  match splitWhitespace line with
  | [a, b] => (parseU32 a).isSome && (parseU32 b).isSome
  | _ => false

/-- The pair a well-formed line denotes. -/
def lineVal (line : String) : Nat × Nat :=
  match splitWhitespace line with
  | [a, b] => ((parseU32 a).getD 0, (parseU32 b).getD 0)
  | _ => (0, 0)

/-- The per-line body of `read_number_pairs`' loop. -/
def readPairLine (line : String) : Except String (Nat × Nat) :=
  match splitWhitespace line with
  | [a, b] =>
    match parseU32 a with
    | none => .error "Failed to parse the first number."
    | some first =>
      match parseU32 b with
      | none => .error "Failed to parse the second number."
      | some second => .ok (first, second)
  | _ => .error "Each line must contain exactly two numbers."

/-- `read_number_pairs` over the lines of the input file (the file
read itself stays outside the model): the first bad line aborts the
whole read with its error, otherwise every line contributes its pair
in order. -/
def read_number_pairs : List String → Except String (List (Nat × Nat))
  | [] => .ok []
  | line :: rest =>
    match readPairLine line with
    | .error e => .error e
    | .ok p =>
      match read_number_pairs rest with
      | .error e => .error e
      | .ok ps => .ok (p :: ps)

/-! ## Derived projections of the sidecar reader, used in statements -/

/-- The website string the JSON path dispatches on, when the "category"
key is present: its string value, or "" for a non-string value. -/
def jsonWebsite (j : Json) : Option String :=
  (j.get "category").map (fun v => (v.asStr).getD "")

/-- The source text the JSON path produces from the "source" and "url"
fields of a sidecar (the draft's source is `None` before this step). -/
def jsonSource (j : Json) : Option String :=
  match j.get "source" >>= Json.asStr, j.get "url" >>= Json.asStr with
  | some source, some url => some (source ++ "\n" ++ url)
  | some source, none => some source
  | none, some url => some url
  | none, none => none

/-- The tag set the JSON path produces: the parsed "tags" field, with a
creator tag appended when a "username" string is present. -/
def finalJsonTags (j : Json) (website : String) : Option (List String) :=
  match jsonUsername j with
  | some username_str =>
    some ((jsonTags j website).getD [] ++ ["creator:" ++ username_str])
  | none => jsonTags j website

/-- How the JSON path updates the draft's safety: a present
safety/rating string replaces it by its parse (possibly `none` for an
unrecognized string); an absent string leaves it untouched. -/
def jsonSafetyUpd (j : Json) (prev : Option PostSafety) :
    Option PostSafety :=
  match jsonSafetyStr j with
  | some safety_str => parseSafety safety_str
  | none => prev

/-- Projection helpers for the single API action `create_post` issues. -/
def ApiAction.isUpdate : ApiAction → Bool
  | .update _ _ => true
  | .create _ => false

def ApiAction.keyId : ApiAction → Option Nat
  | .update i _ => some i
  | .create _ => none

def ApiAction.body : ApiAction → CreateUpdatePost
  | .update _ b => b
  | .create b => b

/-- The concrete exact post and empty draft used by the C1 witness. -/
def epW : RemotePost := ⟨some 42, some 3, none, none, none, none⟩

def draftW : CreateUpdatePost :=
  ⟨none, none, none, none, none, none, none, none, none, none⟩

/-- The exact event trace `retry` produces when every attempt fails,
given `n` configured attempts: `n` attempts with one fixed-backoff
sleep between consecutive attempts. -/
def failTrace (backoff : Nat) : Nat → List RetryEvent
  | 0 => []
  | 1 => [RetryEvent.attempt]
  | n + 2 => RetryEvent.attempt :: RetryEvent.sleep backoff ::
      failTrace backoff (n + 1)

/-- The always-failing operation used by the C3 witness and
counterexample. -/
def alwaysBoom : Nat → Except String Nat := fun _ => Except.error "boom"

/-- An always-succeeding file producing post id 7, and a file always
failing with "x", for the C4 witness and counterexample. -/
def okSeven : Nat → Except String (Nat × Option String) :=
  fun _ => Except.ok (7, none)

def failX : Nat → Except String (Nat × Option String) :=
  fun _ => Except.error "x"

/-- The JSON sidecar with identical "source" and "url" used by the C5
counterexample. -/
def jdup : Json :=
  Json.obj [("source", Json.str "u"), ("url", Json.str "u"),
    ("category", Json.str "zz")]

/-- The JSON sidecar used by the C9 witness: category danbooru expects
a tags array but finds a string, so its tags are unparseable; the
username "al" still contributes a creator tag. -/
def jC9 : Json :=
  Json.obj [("category", Json.str "danbooru"), ("tags", Json.str "oops"),
    ("username", Json.str "al")]

/-- The JSON sidecar without a "category" key used by the C10 witness. -/
def jC10 : Json := Json.obj [("tags", Json.str "a, b")]

/-! ## Theorems -/

lemma merge_vecs_unique_none_iff {T : Type} [DecidableEq T]
    (v1 v2 : Option (List T)) :
    merge_vecs_unique v1 v2 = none ↔ v1.getD [] ++ v2.getD [] = [] := by
  unfold merge_vecs_unique
  cases hd : (v1.getD [] ++ v2.getD []).dedup with
  | nil =>
    simp only [List.isEmpty_nil, if_true]
    simpa using (List.dedup_eq_nil _).mp hd
  | cons x xs =>
    simp only [List.isEmpty_cons, Bool.false_eq_true, if_false]
    constructor
    · intro h; cases h
    · intro h
      rw [h] at hd
      simp [List.dedup_nil] at hd

lemma merge_vecs_unique_some {T : Type} [DecidableEq T]
    (v1 v2 : Option (List T)) (l : List T)
    (h : merge_vecs_unique v1 v2 = some l) :
    l ≠ [] ∧ l.Nodup ∧ ∀ a, a ∈ l ↔ a ∈ v1.getD [] ∨ a ∈ v2.getD [] := by
  unfold merge_vecs_unique at h
  cases hd : (v1.getD [] ++ v2.getD []).dedup with
  | nil => rw [hd] at h; simp at h
  | cons x xs =>
    rw [hd] at h
    simp only [List.isEmpty_cons, Bool.false_eq_true, if_false,
      Option.some.injEq] at h
    subst h
    refine ⟨by simp, ?_, ?_⟩
    · rw [← hd]; exact List.nodup_dedup _
    · intro a
      rw [← hd, List.mem_dedup, List.mem_append]

lemma merge_source_none_iff (o1 o2 : Option String) :
    merge_source o1 o2 = none ↔
      rustLines (o1.getD "") ++ rustLines (o2.getD "") = [] := by
  unfold merge_source sourceLineUnion
  cases hd : ((rustLines (o1.getD "")) ++ (rustLines (o2.getD ""))).dedup with
  | nil =>
    simp only [List.isEmpty_nil, if_true]
    simpa using (List.dedup_eq_nil _).mp hd
  | cons x xs =>
    simp only [List.isEmpty_cons, Bool.false_eq_true, if_false]
    constructor
    · intro h; cases h
    · intro h
      rw [h] at hd
      simp [List.dedup_nil] at hd

lemma merge_source_some (o1 o2 : Option String) (t : String)
    (h : merge_source o1 o2 = some t) :
    t = String.intercalate "\n" (sourceLineUnion o1 o2) ∧
      (sourceLineUnion o1 o2).Nodup ∧
      ∀ a, a ∈ sourceLineUnion o1 o2 ↔
        a ∈ rustLines (o1.getD "") ∨ a ∈ rustLines (o2.getD "") := by
  unfold merge_source at h
  refine ⟨?_, List.nodup_dedup _, fun a => ?_⟩
  · by_cases he : (sourceLineUnion o1 o2).isEmpty <;> simp [he] at h
    exact h.symm
  · unfold sourceLineUnion
    rw [List.mem_dedup, List.mem_append]

/-- C2: `merge_vecs_unique` returns the deduplicated union of the two
optional collections and is `none` exactly when that union is empty
(never a present-but-empty list); `merge_source` does the same over the
line-sets of the two optional texts; and the merge is idempotent in the
sense that merging a collection with itself leaves its element set
unchanged. -/
theorem claim2_merge_dedup_union {T : Type} [DecidableEq T]
    (v1 v2 x : Option (List T)) (o1 o2 : Option String) :
    (merge_vecs_unique v1 v2 = none ↔ v1.getD [] ++ v2.getD [] = []) ∧
    (∀ l, merge_vecs_unique v1 v2 = some l →
      l ≠ [] ∧ l.Nodup ∧ ∀ a, a ∈ l ↔ a ∈ v1.getD [] ∨ a ∈ v2.getD []) ∧
    (∀ a, a ∈ (merge_vecs_unique x x).getD [] ↔ a ∈ x.getD []) ∧
    (merge_source o1 o2 = none ↔
      rustLines (o1.getD "") ++ rustLines (o2.getD "") = []) ∧
    (∀ t, merge_source o1 o2 = some t →
      t = String.intercalate "\n" (sourceLineUnion o1 o2) ∧
      (sourceLineUnion o1 o2).Nodup ∧
      ∀ a, a ∈ sourceLineUnion o1 o2 ↔
        a ∈ rustLines (o1.getD "") ∨ a ∈ rustLines (o2.getD "")) := by
  refine ⟨merge_vecs_unique_none_iff v1 v2,
    fun l h => merge_vecs_unique_some v1 v2 l h, fun a => ?_,
    merge_source_none_iff o1 o2,
    fun t h => merge_source_some o1 o2 t h⟩
  cases hm : merge_vecs_unique x x with
  | none =>
    have := (merge_vecs_unique_none_iff x x).mp hm
    simp only [List.append_eq_nil] at this
    simp [this.1]
  | some l =>
    have h := merge_vecs_unique_some x x l hm
    simpa [or_self_iff] using h.2.2 a

/-- Witness for C2: the spec's own example, base tags {a,b} and draft
tags {b,c}, merges to the set {a,b,c} with no duplicates. -/
theorem claim2_merge_dedup_union_witness :
    merge_vecs_unique (some ["a", "b"]) (some ["b", "c"]) =
      some ["a", "b", "c"] ∧
    (["a", "b", "c"] : List String).Nodup ∧
    ("b" ∈ (["a", "b", "c"] : List String) ↔
      "b" ∈ (["a", "b"] : List String) ∨ "b" ∈ (["b", "c"] : List String)) := by
  have hm : merge_vecs_unique (some ["a", "b"]) (some ["b", "c"]) =
      some ["a", "b", "c"] := by decide
  have h := (claim2_merge_dedup_union (some ["a", "b"]) (some ["b", "c"])
    (some ["a", "b"]) (some "u") (some "v")).2.1 ["a", "b", "c"] hm
  exact ⟨hm, h.2.1, h.2.2 "b"⟩

lemma extractSimilarIds_mem (sim : List SimilarPost) (l : List Nat)
    (h : extractSimilarIds sim = Except.ok l) :
    ∀ x, x ∈ l ↔ ∃ p ∈ sim, p.id = some x := by
  induction sim generalizing l with
  | nil =>
    simp only [extractSimilarIds, Except.ok.injEq] at h
    subst h; simp
  | cons p rest ih =>
    simp only [extractSimilarIds] at h
    cases hp : p.id with
    | none => rw [hp] at h; cases h
    | some i =>
      rw [hp] at h
      cases hr : extractSimilarIds rest with
      | error e => rw [hr] at h; cases h
      | ok is =>
        rw [hr] at h
        simp only [Except.map, Except.ok.injEq] at h
        subst h
        intro x
        rw [List.mem_cons, ih is hr x]
        constructor
        · rintro (rfl | ⟨q, hq, hqid⟩)
          · exact ⟨p, List.mem_cons_self p rest, hp⟩
          · exact ⟨q, List.mem_cons_of_mem p hq, hqid⟩
        · rintro ⟨q, hq, hqid⟩
          rcases List.mem_cons.mp hq with rfl | hq2
          · rw [hp] at hqid
            exact Or.inl (Option.some.inj hqid).symm
          · exact Or.inr ⟨q, hq2, hqid⟩

/-- C6: a similar match contributes its id to the draft's relations
exactly when its distance is at least 0.75; a match at exactly 0.75 is
included and one whose every occurrence is at distance at most 0.7499
is excluded; on the create path the computed ids become the created
body's relations. -/
theorem claim6_similarity_threshold (sim : List SimilarPost)
    (rel : List Nat) (h : similarRelations sim = Except.ok rel) :
    (∀ x, x ∈ rel ↔ ∃ p ∈ sim, p.id = some x ∧ (0.75 : ℚ) ≤ p.distance) ∧
    (∀ p ∈ sim, ∀ x, p.id = some x → p.distance = (0.75 : ℚ) → x ∈ rel) ∧
    (∀ x, (∀ p ∈ sim, p.id = some x → p.distance ≤ (0.7499 : ℚ)) →
      x ∉ rel) ∧
    (∀ draft body, sim ≠ [] →
      create_post_decision none sim draft = Except.ok (ApiAction.create body) →
      body.relations = some rel) := by
  have hmem : ∀ x, x ∈ rel ↔
      ∃ p ∈ sim, p.id = some x ∧ (0.75 : ℚ) ≤ p.distance := by
    intro x
    have := extractSimilarIds_mem _ rel h x
    rw [this]
    constructor
    · rintro ⟨p, hp, hid⟩
      rw [List.mem_filter] at hp
      exact ⟨p, hp.1, hid, by simpa using hp.2⟩
    · rintro ⟨p, hp, hid, hd⟩
      exact ⟨p, List.mem_filter.mpr ⟨hp, by simpa using hd⟩, hid⟩
  refine ⟨hmem, ?_, ?_, ?_⟩
  · intro p hp x hid hd
    exact (hmem x).mpr ⟨p, hp, hid, by rw [hd]⟩
  · intro x hall hx
    obtain ⟨p, hp, hid, hd⟩ := (hmem x).mp hx
    have := hall p hp hid
    have : (0.75 : ℚ) ≤ (0.7499 : ℚ) := le_trans hd this
    norm_num at this
  · intro draft body hne hdec
    have hE : sim.isEmpty = false := by
      cases sim with
      | nil => exact absurd rfl hne
      | cons a l => rfl
    unfold create_post_decision at hdec
    have hap : applySimilar sim draft =
        Except.ok { draft with relations := some rel } := by
      unfold applySimilar
      rw [hE]
      simp [h]
    rw [hap] at hdec
    simp only [resolveAction, Except.ok.injEq,
      ApiAction.create.injEq] at hdec
    rw [← hdec]

/-- Witness for C6: two similar matches at distances exactly 0.75 and
0.7499; the first becomes a relation, the second does not. -/
theorem claim6_similarity_threshold_witness :
    (1 ∈ ([1] : List Nat)) ∧ 2 ∉ ([1] : List Nat) := by
  have h : similarRelations
      [⟨some 1, (0.75 : ℚ)⟩, ⟨some 2, (0.7499 : ℚ)⟩] = Except.ok [1] := by
    have h1 : ((0.75 : ℚ) ≤ (0.75 : ℚ)) := le_refl _
    have h2 : ¬ ((0.75 : ℚ) ≤ (0.7499 : ℚ)) := by norm_num
    simp [similarRelations, List.filter_cons, h1, h2, extractSimilarIds,
      Except.map]
  have hc := claim6_similarity_threshold
    [⟨some 1, (0.75 : ℚ)⟩, ⟨some 2, (0.7499 : ℚ)⟩] [1] h
  refine ⟨hc.2.1 ⟨some 1, (0.75 : ℚ)⟩ (by simp) 1 rfl rfl, hc.2.2.1 2 ?_⟩
  intro p hp hid
  simp only [List.mem_cons, List.not_mem_nil, or_false] at hp
  rcases hp with rfl | rfl
  · simp at hid
  · norm_num

lemma readPairLine_spec (line : String) :
    (lineOk line = true → readPairLine line = Except.ok (lineVal line)) ∧
    (∀ p, readPairLine line = Except.ok p →
      lineOk line = true ∧ p = lineVal line) := by
  unfold readPairLine lineOk lineVal
  cases hs : splitWhitespace line with
  | nil => simp
  | cons a rest =>
    cases rest with
    | nil => simp
    | cons b rest2 =>
      cases rest2 with
      | cons c rest3 => simp
      | nil =>
        cases hx : parseU32 a with
        | none => simp [hx]
        | some x =>
          cases hy : parseU32 b with
          | none => simp [hx, hy]
          | some y => simp [hx, hy]

/-- C8: `read_number_pairs` succeeds exactly when every line consists
of exactly two whitespace-separated tokens that both parse as `u32`,
and then returns, in order, one pair per line; any malformed line makes
the entire read fail with an error (no partial result). -/
theorem claim8_read_number_pairs (ls : List String) :
    ((∀ line ∈ ls, lineOk line = true) →
      read_number_pairs ls = Except.ok (ls.map lineVal)) ∧
    (∀ pairs, read_number_pairs ls = Except.ok pairs →
      (∀ line ∈ ls, lineOk line = true) ∧ pairs = ls.map lineVal) := by
  induction ls with
  | nil => exact ⟨fun _ => rfl, fun pairs h => by cases h; simp⟩
  | cons line rest ih =>
    constructor
    · intro hall
      have h1 := (readPairLine_spec line).1
        (hall line (List.mem_cons_self line rest))
      have h2 := ih.1 (fun l hl => hall l (List.mem_cons_of_mem line hl))
      simp [read_number_pairs, h1, h2]
    · intro pairs h
      simp only [read_number_pairs] at h
      cases hl : readPairLine line with
      | error e => rw [hl] at h; cases h
      | ok p =>
        rw [hl] at h
        cases hr : read_number_pairs rest with
        | error e => rw [hr] at h; cases h
        | ok ps =>
          rw [hr] at h
          cases h
          obtain ⟨hok, hval⟩ := (readPairLine_spec line).2 p hl
          obtain ⟨hrest, hps⟩ := ih.2 ps hr
          refine ⟨fun l hml => ?_, ?_⟩
          · rcases List.mem_cons.mp hml with rfl | hml2
            · exact hok
            · exact hrest l hml2
          · rw [List.map_cons, ← hval, ← hps]

/-- Witness for C8: the spec's examples: the file "5 9" parses to the
single pair (5,9); the files "5" and "5 9 1" fail as a whole. -/
theorem claim8_read_number_pairs_witness :
    read_number_pairs ["5 9"] = Except.ok [(5, 9)] ∧
    read_number_pairs ["5", "1 2"] =
      Except.error "Each line must contain exactly two numbers." ∧
    read_number_pairs ["5 9 1"] =
      Except.error "Each line must contain exactly two numbers." := by
  refine ⟨?_, by rfl, by rfl⟩
  have h := (claim8_read_number_pairs ["5 9"]).1 (by decide)
  rw [h]
  rfl

/-- C1: when the reverse-search result has an exact match, the one API
action that `create_post` issues is an update keyed by that post's id,
whose body carries that post's version — never a create; a create is
issued only when there is no exact match. -/
theorem claim1_exact_match_updates :
    (∀ (ep : RemotePost) (sim : List SimilarPost)
        (draft : CreateUpdatePost) (act : ApiAction),
      create_post_decision (some ep) sim draft = Except.ok act →
      act.isUpdate = true ∧ act.keyId = ep.id ∧
        act.body.version = ep.version) ∧
    (∀ (exact : Option RemotePost) (sim : List SimilarPost)
        (draft : CreateUpdatePost) (body : CreateUpdatePost),
      create_post_decision exact sim draft =
        Except.ok (ApiAction.create body) → exact = none) := by
  constructor
  · intro ep sim draft act h
    unfold create_post_decision at h
    cases hs : applySimilar sim draft with
    | error e => rw [hs] at h; cases h
    | ok post =>
      rw [hs] at h
      simp only [resolveAction] at h
      cases hid : ep.id with
      | none => rw [hid] at h; cases h
      | some i =>
        rw [hid] at h
        cases h
        exact ⟨rfl, rfl, rfl⟩
  · intro exact sim draft body h
    unfold create_post_decision at h
    cases hs : applySimilar sim draft with
    | error e => rw [hs] at h; cases h
    | ok post =>
      rw [hs] at h
      cases exact with
      | none => rfl
      | some ep =>
        simp only [resolveAction] at h
        cases hid : ep.id with
        | none => rw [hid] at h; cases h
        | some i => rw [hid] at h; cases h

/-- Witness for C1: the spec's own example, an exact match with id 42:
the decision is an update keyed by 42 carrying the remote version. -/
theorem claim1_exact_match_updates_witness :
    (ApiAction.update 42 (mergedUpdateBody epW draftW)).isUpdate = true ∧
    (ApiAction.update 42 (mergedUpdateBody epW draftW)).keyId = epW.id ∧
    (ApiAction.update 42 (mergedUpdateBody epW draftW)).body.version =
      epW.version :=
  claim1_exact_match_updates.1 epW [] draftW
    (ApiAction.update 42 (mergedUpdateBody epW draftW)) rfl

lemma failTrace_count_attempt (backoff n : Nat) :
    (failTrace backoff n).count RetryEvent.attempt = n := by
  induction n with
  | zero => rfl
  | succ m ih =>
    cases m with
    | zero => rfl
    | succ k =>
      have hk : (failTrace backoff (k + 1)).count RetryEvent.attempt =
          k + 1 := ih
      simp [failTrace, List.count_cons, hk]

lemma failTrace_sleeps (backoff n : Nat) :
    ∀ d, RetryEvent.sleep d ∈ failTrace backoff n → d = backoff := by
  induction n with
  | zero => intro d hd; cases hd
  | succ m ih =>
    cases m with
    | zero =>
      intro d hd
      simp only [failTrace, List.mem_singleton] at hd
      cases hd
    | succ k =>
      intro d hd
      simp only [failTrace, List.mem_cons] at hd
      rcases hd with hd | hd | hd
      · cases hd
      · exact (RetryEvent.sleep.inj hd)
      · exact ih d hd

lemma failTrace_sleep_count (backoff n : Nat) :
    ((failTrace backoff n).filter (fun ev =>
      match ev with
      | RetryEvent.sleep _ => true
      | RetryEvent.attempt => false)).length = n - 1 := by
  induction n with
  | zero => rfl
  | succ m ih =>
    cases m with
    | zero => rfl
    | succ k =>
      simp only [failTrace, List.filter_cons] at *
      simpa using ih

lemma retryGo_always_fails {α : Type} (backoff : Nat)
    (f : Nat → Except String α) (errf : Nat → String)
    (hf : ∀ k, f k = Except.error (errf k)) :
    ∀ (n attempt : Nat), retryGo backoff f attempt (n + 1) =
      (failTrace backoff (n + 1), Except.error (errf (attempt + n))) := by
  intro n
  induction n with
  | zero =>
    intro attempt
    simp [retryGo, hf attempt, failTrace]
  | succ m ih =>
    intro attempt
    have hstep : retryGo backoff f attempt (m + 2) =
        (RetryEvent.attempt :: RetryEvent.sleep backoff ::
          (retryGo backoff f (attempt + 1) (m + 1)).1,
         (retryGo backoff f (attempt + 1) (m + 1)).2) := by
      simp [retryGo, hf attempt]
    rw [hstep, ih (attempt + 1)]
    simp only [failTrace]
    have h1 : attempt + 1 + m = attempt + (m + 1) := by omega
    rw [h1]

/-- C3 (amended): for a positive retry count `n` and an operation that
always fails, `ApiClient::retry` attempts the operation exactly `n`
times, sleeping the fixed backoff between consecutive attempts, and
after the final failed attempt returns the last error unchanged; the
"Max retry attempts reached" fallback is returned only when the
configured retry count is zero, in which case nothing is attempted. -/
theorem claim3_retry_fixed_backoff {α : Type} (backoff n : Nat)
    (f : Nat → Except String α) (errf : Nat → String)
    (hn : 1 ≤ n) (hf : ∀ k, f k = Except.error (errf k)) :
    retryRun backoff n f =
      (failTrace backoff n, Except.error (errf (n - 1))) ∧
    (retryRun backoff n f).1.count RetryEvent.attempt = n ∧
    (∀ d, RetryEvent.sleep d ∈ (retryRun backoff n f).1 → d = backoff) ∧
    ((retryRun backoff n f).1.filter (fun ev =>
      match ev with
      | RetryEvent.sleep _ => true
      | RetryEvent.attempt => false)).length = n - 1 ∧
    retryRun backoff 0 f = ([], Except.error "Max retry attempts reached") := by
  obtain ⟨m, rfl⟩ : ∃ m, n = m + 1 := ⟨n - 1, by omega⟩
  have h := retryGo_always_fails backoff f errf hf m 0
  have hrun : retryRun backoff (m + 1) f =
      (failTrace backoff (m + 1), Except.error (errf (m + 1 - 1))) := by
    unfold retryRun
    rw [h]
    simp
  refine ⟨hrun, ?_, ?_, ?_, rfl⟩
  · rw [hrun]; exact failTrace_count_attempt backoff (m + 1)
  · rw [hrun]; exact failTrace_sleeps backoff (m + 1)
  · rw [hrun]; exact failTrace_sleep_count backoff (m + 1)

/-- Witness for C3 (amended): retry count 3 with backoff 7 against an
always-failing operation: three attempts, two fixed sleeps, and the
last error "boom" surfaced unchanged. -/
theorem claim3_retry_fixed_backoff_witness :
    retryRun 7 3 alwaysBoom =
      ([RetryEvent.attempt, RetryEvent.sleep 7, RetryEvent.attempt,
        RetryEvent.sleep 7, RetryEvent.attempt],
       Except.error "boom") ∧
    (retryRun 7 3 alwaysBoom).1.count RetryEvent.attempt = 3 := by
  have h := claim3_retry_fixed_backoff 7 3 alwaysBoom (fun _ => "boom")
    (by omega) (fun k => rfl)
  exact ⟨by rw [h.1]; rfl, h.2.1⟩

/-- Counterexample for C3 as stated: with retry count 1 and an
operation failing with "boom", the error surfaced after the final
failed attempt is "boom" itself, not the "Max retry attempts reached"
(MaxRetriesExceeded) error the claim promises. -/
theorem claim3_counterexample :
    retryRun 5 1 alwaysBoom = ([RetryEvent.attempt], Except.error "boom") ∧
    (retryRun 5 1 alwaysBoom).2 ≠
      (Except.error "Max retry attempts reached" : Except String Nat) := by
  constructor
  · rfl
  · intro hcontra
    have : "boom" = "Max retry attempts reached" := by
      have h2 : (retryRun 5 1 alwaysBoom).2 = Except.error "boom" := rfl
      rw [h2] at hcontra
      exact Except.error.inj hcontra
    simp at this

lemma uploadFileGo_always_fails (skip : Bool)
    (f : Nat → Except String (Nat × Option String)) (errf : Nat → String)
    (hf : ∀ k, f k = Except.error (errf k)) :
    ∀ (budget retries : Nat), uploadFileGo skip f retries budget =
      (if skip then FileResult.skipped (retries + budget + 1)
       else FileResult.aborted (errf (retries + budget))
         (retries + budget + 1)) := by
  intro budget
  induction budget with
  | zero =>
    intro retries
    simp [uploadFileGo, hf retries]
  | succ b ih =>
    intro retries
    have hstep : uploadFileGo skip f retries (b + 1) =
        uploadFileGo skip f (retries + 1) b := by
      simp [uploadFileGo, hf retries]
    rw [hstep, ih (retries + 1)]
    have h1 : retries + 1 + b = retries + (b + 1) := by omega
    rw [h1]

/-- C4 (amended): a file whose upload always fails is attempted exactly
`retry_attempts + 1` times (1 initial + R retries); once the budget is
exhausted, with `skip_on_error = true` the batch continues with the
remaining files, and with `skip_on_error = false` `upload_posts` aborts
the whole batch returning only the final error — the post ids already
succeeded are discarded, not returned. -/
theorem claim4_retry_budget (skip : Bool) (R : Nat)
    (f : Nat → Except String (Nat × Option String)) (errf : Nat → String)
    (rest : List (Nat → Except String (Nat × Option String)))
    (hf : ∀ k, f k = Except.error (errf k)) :
    (uploadFile skip R f).attempts = R + 1 ∧
    upload_posts true R (f :: rest) = upload_posts true R rest ∧
    upload_posts false R (f :: rest) = Except.error (errf R) := by
  have h := uploadFileGo_always_fails skip f errf hf R 0
  have htrue := uploadFileGo_always_fails true f errf hf R 0
  have hfalse := uploadFileGo_always_fails false f errf hf R 0
  simp only [if_true] at htrue
  simp only [Bool.false_eq_true, if_false] at hfalse
  refine ⟨?_, ?_, ?_⟩
  · unfold uploadFile
    rw [h]
    cases skip <;> simp [FileResult.attempts]
  · have hu : uploadFile true R f = FileResult.skipped (R + 1) := by
      unfold uploadFile
      rw [show (0 : Nat) + R = R from by omega] at htrue
      exact htrue
    unfold upload_posts
    simp only [uploadPostsGo, hu]
  · have hu : uploadFile false R f = FileResult.aborted (errf R) (R + 1) := by
      unfold uploadFile
      rw [show (0 : Nat) + R = R from by omega] at hfalse
      exact hfalse
    unfold upload_posts
    simp only [uploadPostsGo, hu]

/-- Witness for C4 (amended): with retry_attempts = 2 an always-failing
file is attempted exactly 3 times; with skip_on_error the batch moves
on and still returns the other file's id. -/
theorem claim4_retry_budget_witness :
    (uploadFile false 2 failX).attempts = 2 + 1 ∧
    upload_posts true 2 [failX, okSeven] = Except.ok [7] := by
  have h := claim4_retry_budget false 2 failX (fun _ => "x") [okSeven]
    (fun k => rfl)
  exact ⟨h.1, by rw [h.2.1]; rfl⟩

/-- Counterexample for C4 as stated: retry_attempts = 2,
skip_on_error = false, one file that succeeds with id 7 followed by one
that always fails: `upload_posts` returns the bare error "x"; the
already-succeeded id 7 appears nowhere in the result (the claim says
the error is returned together with the list of succeeded ids, but the
error side of the return type carries no id list at all). -/
theorem claim4_counterexample :
    upload_posts false 2 [okSeven, failX] = Except.error "x" ∧
    (Except.error "x" : Except String (List Nat)) ≠ Except.ok [7] := by
  constructor
  · rfl
  · intro hcontra
    cases hcontra

lemma sidecarSafety_parsed (j : Json) :
    sidecarSafety (SidecarJson.parsed j) = jsonSafetyUpd j none := by
  cases hss : jsonSafetyStr j <;>
    simp [sidecarSafety, jsonSafetyUpd, hss, Option.bind]

lemma jsonStep_nocat (j : Json) (post : CreateUpdatePost)
    (hc : j.get "category" = none) :
    jsonStep j post = Except.error MetaErr.panicMissingCategory := by
  unfold jsonStep
  cases hs : j.get "source" >>= Json.asStr <;>
    cases hu : j.get "url" >>= Json.asStr <;>
      simp [hs, hu, hc]

lemma jsonStep_eq (j : Json) (post : CreateUpdatePost) (cv : Json)
    (hc : j.get "category" = some cv) (hps : post.source = none) :
    jsonStep j post = Except.ok
      { post with
        tags := finalJsonTags j ((cv.asStr).getD ""),
        source := jsonSource j,
        safety := jsonSafetyUpd j post.safety } := by
  unfold jsonStep
  cases hs : j.get "source" >>= Json.asStr <;>
    cases hu : j.get "url" >>= Json.asStr <;>
      cases husr : jsonUsername j <;>
        cases hss : jsonSafetyStr j <;>
          simp [hs, hu, hc, husr, hss, hps, jsonSource, finalJsonTags,
            jsonSafetyUpd]

lemma make_post_absent_eq (token : String) (txt : Option String) :
    make_post_with_metadata token txt SidecarJson.absent = Except.ok
      ({ version := none, tags := txt.map txtTags,
         safety := some PostSafety.nsfw, source := none,
         relations := none, notes := none, flags := none,
         content_url := none, content_token := some token,
         anonymous := some false }, none) := by
  cases txt <;> rfl

lemma make_post_malformed_eq (token : String) (txt : Option String) :
    make_post_with_metadata token txt SidecarJson.malformed =
      Except.error MetaErr.parseError := by
  cases txt <;> rfl

lemma make_post_parsed_nocat (token : String) (txt : Option String)
    (j : Json) (hc : j.get "category" = none) :
    make_post_with_metadata token txt (SidecarJson.parsed j) =
      Except.error MetaErr.panicMissingCategory := by
  cases txt <;>
    simp [make_post_with_metadata, jsonStep_nocat _ _ hc]

lemma make_post_parsed_eq (token : String) (txt : Option String)
    (j cv : Json) (hc : j.get "category" = some cv) :
    make_post_with_metadata token txt (SidecarJson.parsed j) = Except.ok
      ({ version := none,
         tags := finalJsonTags j ((cv.asStr).getD ""),
         safety :=
           some ((sidecarSafety (SidecarJson.parsed j)).getD
             PostSafety.nsfw),
         source := jsonSource j,
         relations := none, notes := none, flags := none,
         content_url := none, content_token := some token,
         anonymous := some false }, none) := by
  rw [sidecarSafety_parsed]
  cases txt with
  | none =>
    have hj := jsonStep_eq j
      { version := none, tags := none, safety := none, source := none,
        relations := none, notes := none, flags := none,
        content_url := none, content_token := some token,
        anonymous := some false } cv hc rfl
    unfold make_post_with_metadata
    dsimp only
    rw [hj]
    cases hv : jsonSafetyUpd j none <;> simp [hv]
  | some c =>
    have hj := jsonStep_eq j
      { version := none, tags := some (txtTags c), safety := none,
        source := none, relations := none, notes := none, flags := none,
        content_url := none, content_token := some token,
        anonymous := some false } cv hc rfl
    unfold make_post_with_metadata
    dsimp only
    rw [hj]
    cases hv : jsonSafetyUpd j none <;> simp [hv]

/-- C5 (amended): on the `.txt` path every produced tag is free of
spaces (each space is replaced by an underscore) and the draft's tag
set is exactly the txt-derived list; however the sidecar reader does
not deduplicate: duplicate tags and duplicate source lines survive
(deduplication happens only later, in the merge step). -/
theorem claim5_txt_tags_normalized :
    (∀ (c : String) (t : String), t ∈ txtTags c → ' ' ∉ t.data) ∧
    (∀ (token c : String) (p : CreateUpdatePost) (a : Option String),
      make_post_with_metadata token (some c) SidecarJson.absent =
        Except.ok (p, a) → p.tags = some (txtTags c)) := by
  constructor
  · intro c t ht hsp
    unfold txtTags at ht
    obtain ⟨s, hs, rfl⟩ := List.mem_map.mp ht
    unfold underscoreSpaces at hsp
    simp only [String.data] at hsp
    obtain ⟨c0, hc0, hc0eq⟩ := List.mem_map.mp hsp
    by_cases h0 : c0 = ' ' <;> simp [h0] at hc0eq
  · intro token c p a h
    rw [make_post_absent_eq] at h
    cases h
    rfl

/-- Witness for C5 (amended): a txt sidecar "a b" yields the single
space-free tag "a_b". -/
theorem claim5_txt_tags_normalized_witness :
    ' ' ∉ ("a_b" : String).data ∧ txtTags "a b" = ["a_b"] := by
  have ht : txtTags "a b" = ["a_b"] := by rfl
  refine ⟨claim5_txt_tags_normalized.1 "a b" "a_b" ?_, ht⟩
  rw [ht]
  exact List.mem_singleton.mpr rfl

/-- Counterexample for C5 as stated: the txt sidecar "a\na" produces
the duplicated tag list [a, a], and a JSON sidecar whose "source" and
"url" are both "u" produces the source text "u\nu" whose line set has a
duplicate — the reader deduplicates neither tags nor source lines. -/
theorem claim5_counterexample :
    (make_post_with_metadata "tok" (some "a\na") SidecarJson.absent).map
      (fun pa => pa.1.tags) = Except.ok (some ["a", "a"]) ∧
    ¬ (["a", "a"] : List String).Nodup ∧
    (make_post_with_metadata "tok" none (SidecarJson.parsed jdup)).map
      (fun pa => pa.1.source) = Except.ok (some "u\nu") ∧
    rustLines "u\nu" = ["u", "u"] ∧
    ¬ (["u", "u"] : List String).Nodup := by
  refine ⟨by rfl, by decide, by rfl, by rfl, by decide⟩

/-- C7: on the update path the submitted safety is the local draft's
safety when present, otherwise the remote post's when present,
otherwise Unsafe; and a draft built from sidecars that supply no
recognized safety value has safety Unsafe. -/
theorem claim7_safety_preference :
    (∀ (local_ remote : Option PostSafety),
      mergedSafety local_ remote =
        some (local_.getD (remote.getD PostSafety.nsfw))) ∧
    (∀ (ep : RemotePost) (post : CreateUpdatePost),
      (mergedUpdateBody ep post).safety =
        mergedSafety post.safety ep.safety) ∧
    (∀ (token : String) (txt : Option String) (sj : SidecarJson)
        (p : CreateUpdatePost) (a : Option String),
      make_post_with_metadata token txt sj = Except.ok (p, a) →
      sidecarSafety sj = none → p.safety = some PostSafety.nsfw) := by
  refine ⟨?_, fun ep post => rfl, ?_⟩
  · intro local_ remote
    cases local_ <;> cases remote <;> rfl
  · intro token txt sj p a h hnone
    cases sj with
    | absent =>
      rw [make_post_absent_eq] at h
      cases h
      rfl
    | malformed => rw [make_post_malformed_eq] at h; cases h
    | parsed j =>
      cases hc : j.get "category" with
      | none => rw [make_post_parsed_nocat token txt j hc] at h; cases h
      | some cv =>
        rw [make_post_parsed_eq token txt j cv hc] at h
        cases h
        rw [hnone]
        rfl

/-- Witness for C7: an empty draft against a remote post whose safety
is Sketchy: the remote's value wins; and with no sidecars at all the
draft's safety defaults to Unsafe. -/
theorem claim7_safety_preference_witness :
    mergedSafety none (some PostSafety.sketchy) =
      some PostSafety.sketchy ∧
    mergedSafety (some PostSafety.safe) (some PostSafety.sketchy) =
      some PostSafety.safe ∧
    ∃ p a, make_post_with_metadata "tok" none SidecarJson.absent =
        Except.ok (p, a) ∧ p.safety = some PostSafety.nsfw := by
  have h1 := claim7_safety_preference.1 none (some PostSafety.sketchy)
  have h2 := claim7_safety_preference.1 (some PostSafety.safe)
    (some PostSafety.sketchy)
  have h3 := claim7_safety_preference.2.2 "tok" none SidecarJson.absent
    _ _ (make_post_absent_eq "tok" none) rfl
  exact ⟨h1, h2, _, _, make_post_absent_eq "tok" none, h3⟩

/-- C9: when a media file has both sidecars and the parsed JSON has no
parseable "tags" field for its category, the tags derived from the
`.txt` sidecar are discarded: the draft's tag set becomes absent,
except that a creator tag is still added when a "username" string is
present. -/
theorem claim9_json_discards_txt_tags (token c : String) (j : Json)
    (w : String) (p : CreateUpdatePost) (a : Option String)
    (hw : jsonWebsite j = some w) (ht : jsonTags j w = none)
    (hok : make_post_with_metadata token (some c) (SidecarJson.parsed j) =
      Except.ok (p, a)) :
    p.tags = (jsonUsername j).map (fun u => ["creator:" ++ u]) := by
  unfold jsonWebsite at hw
  obtain ⟨cv, hc, hcw⟩ := Option.map_eq_some'.mp hw
  rw [make_post_parsed_eq token (some c) j cv hc] at hok
  cases hok
  unfold finalJsonTags
  rw [hcw, ht]
  cases husr : jsonUsername j <;> simp [husr]

/-- Witness for C9: with a txt sidecar "a" and the JSON sidecar above,
the txt tag is discarded and only creator:al remains. -/
theorem claim9_json_discards_txt_tags_witness :
    (jsonUsername jC9).map (fun u => ["creator:" ++ u]) =
      some ["creator:al"] ∧
    ∃ p a, make_post_with_metadata "tok" (some "a")
        (SidecarJson.parsed jC9) = Except.ok (p, a) ∧
      p.tags = some ["creator:al"] := by
  refine ⟨by rfl, ?_⟩
  have hc : jC9.get "category" = some (Json.str "danbooru") := by rfl
  have h := make_post_parsed_eq "tok" (some "a") jC9
    (Json.str "danbooru") hc
  refine ⟨_, _, h, ?_⟩
  have h9 := claim9_json_discards_txt_tags "tok" "a" jC9 "danbooru"
    _ _ (by rfl) (by rfl) h
  rw [h9]
  rfl

/-- C10: a parsed `.json` sidecar with no "category" key makes
`make_post_with_metadata` panic (the modelled outcome of
`.get("category").unwrap()`) rather than return an ordinary error; and
under the precondition that every present parsed sidecar carries a
"category" key the function never reaches that panic. -/
theorem claim10_missing_category_panics :
    (∀ (token : String) (txt : Option String) (j : Json),
      j.get "category" = none →
      make_post_with_metadata token txt (SidecarJson.parsed j) =
        Except.error MetaErr.panicMissingCategory) ∧
    (∀ (token : String) (txt : Option String) (sj : SidecarJson),
      (∀ j, sj = SidecarJson.parsed j → (j.get "category").isSome = true) →
      make_post_with_metadata token txt sj ≠
        Except.error MetaErr.panicMissingCategory) := by
  constructor
  · intro token txt j hc
    exact make_post_parsed_nocat token txt j hc
  · intro token txt sj hpre
    cases sj with
    | absent => rw [make_post_absent_eq]; intro h; cases h
    | malformed => rw [make_post_malformed_eq]; intro h; cases h
    | parsed j =>
      have := hpre j rfl
      cases hc : j.get "category" with
      | none => rw [hc] at this; cases this
      | some cv =>
        rw [make_post_parsed_eq token txt j cv hc]
        intro h
        cases h

/-- Witness for C10: the sidecar above (no "category") panics; adding a
"category" key makes the reader return successfully. -/
theorem claim10_missing_category_panics_witness :
    make_post_with_metadata "tok" none (SidecarJson.parsed jC10) =
      Except.error MetaErr.panicMissingCategory ∧
    make_post_with_metadata "tok" none
        (SidecarJson.parsed (Json.obj [("category", Json.str "zz")])) ≠
      Except.error MetaErr.panicMissingCategory := by
  constructor
  · exact claim10_missing_category_panics.1 "tok" none jC10 rfl
  · exact claim10_missing_category_panics.2 "tok" none
      (SidecarJson.parsed (Json.obj [("category", Json.str "zz")]))
      (fun j hj => by cases hj; rfl)

end Oxibooru
